import Mathlib

/-!
Shallow embedding of the lib.reviews sample (search wrapper, ErrorMessage
class, thing routes, flash/render helpers, editor-switcher pin handler),
with theorems checking the natural-language specification against it.
-/

namespace LibReviews

/-! ## JavaScript values

A small universe of JavaScript values, enough to express the dynamic
type checks performed by the code (`Array.isArray`, `typeof x === 'string'`,
truthiness). -/

inductive JSValue where
  | undefined : JSValue
  | null : JSValue
  | bool : Bool → JSValue
  | num : Int → JSValue
  | str : String → JSValue
  | arr : List JSValue → JSValue
deriving Repr

/-- JavaScript truthiness: `undefined`, `null`, `false`, `0` and the empty
string are falsy; every array (even the empty one) is truthy. -/
def truthy : JSValue → Bool
  | .undefined => false
  | .null => false
  | .bool b => b
  | .num n => n != 0
  | .str s => s != ""
  | .arr _ => true

/-- `Array.isArray`. -/
def isArray : JSValue → Bool
  | .arr _ => true
  | _ => false

/-- `typeof v === 'string'`. -/
def isString : JSValue → Bool
  | .str _ => true
  | _ => false

/-! ## The escape-html library

`toEscapedArray` runs each message parameter through the npm `escape-html`
package, which replaces the five HTML-special characters by entities. -/

/-- The double-quote character (spelled via its code point). -/
def quotChar : Char := Char.ofNat 34

/-- The single-quote character (spelled via its code point). -/
def aposChar : Char := Char.ofNat 39

/-- The entity `escape-html` substitutes for a single quote: `&#` `39` `;`. -/
def aposEntity : List Char :=
  [Char.ofNat 38, Char.ofNat 35, Char.ofNat 51, Char.ofNat 57, Char.ofNat 59]

/-- Per-character escaping performed by `escape-html`: the five
HTML-special characters become entities, every other character is kept. -/
def escapeCharList (c : Char) : List Char :=
  if c = quotChar then "&quot;".data
  else if c = '&' then "&amp;".data
  else if c = aposChar then aposEntity
  else if c = '<' then "&lt;".data
  else if c = '>' then "&gt;".data
  else [c]

/-- Escape a character list by concatenating per-character escapes. -/
def escapeChars : List Char → List Char
  | [] => []
  | c :: cs => escapeCharList c ++ escapeChars cs

/-- The npm `escape-html` function on strings. -/
def escapeHTML (s : String) : String := ⟨escapeChars s.data⟩

/-- A string is HTML-escaped when it is the output of `escapeHTML` on some
input. -/
def HTMLEscapedStr (s : String) : Prop := ∃ t, escapeHTML t = s

/-- A JavaScript value is HTML-escaped when it is a string that is the
output of `escapeHTML`. -/
def HTMLEscapedVal : JSValue → Prop
  | .str s => HTMLEscapedStr s
  | _ => False

/-! ## The ErrorMessage class (src/errors.js in the sample's search.js blob) -/

/-- An `ErrorMessage` instance: the constructor performs no type check on
the message key (it only requires truthiness), and after a successful
construction every message parameter is known to be a string, so the
parameters are stored as strings. -/
structure ErrorMessage where
  msgKey : JSValue
  msgParams : List String
  originalError : Option JSValue
deriving Repr

/-- Extract the underlying strings of a list of JavaScript values, provided
all of them are strings (the constructor's `forEach` type check). -/
def allStrings : List JSValue → Option (List String)
  | [] => some []
  | .str s :: rest => (allStrings rest).map (s :: ·)
  | _ :: _ => none

/-- The `ErrorMessage` constructor. Throwing is modelled by `Except.error`
carrying the thrown error's message. Mirrors the source checks in order:
falsy `msgKey` throws; a truthy non-array `msgParams` throws; a falsy
`msgParams` is replaced by the empty array; any non-string element of the
array throws. -/
def ErrorMessage.construct (msgKey msgParams : JSValue)
    (originalError : Option JSValue) : Except String ErrorMessage :=
  if truthy msgKey = false then
    .error "Must provide at least a message key for the error."
  else if truthy msgParams && !isArray msgParams then
    .error "Message parameters must be provided as an array."
  else
    let ps : List JSValue :=
      if truthy msgParams = false then []
      else match msgParams with
        | .arr l => l
        | v => [v]
    match allStrings ps with
    | some strs => .ok ⟨msgKey, strs, originalError⟩
    | none => .error "Message parameters must be strings."

/-- `toArray()`: the message key followed by the raw parameters. -/
def ErrorMessage.toArray (em : ErrorMessage) : List JSValue :=
  em.msgKey :: em.msgParams.map .str

/-- `toEscapedArray()`: the message key followed by the parameters run
through `escape-html`. The key itself is not escaped. -/
def ErrorMessage.toEscapedArray (em : ErrorMessage) : List JSValue :=
  em.msgKey :: em.msgParams.map (fun s => .str (escapeHTML s))

example : ErrorMessage.construct (.str "k") (.arr [.str "x"]) none =
    .ok ⟨.str "k", ["x"], none⟩ := by rfl

example : ErrorMessage.construct (.str "k") (.bool false) none =
    .ok ⟨.str "k", [], none⟩ := by rfl

example : ErrorMessage.construct (.str "k") (.num 7) none =
    .error "Message parameters must be provided as an array." := by rfl

example : ErrorMessage.construct (.str "k") (.arr [.num 7]) none =
    .error "Message parameters must be strings." := by rfl

example : escapeHTML "<b>" = "&lt;b&gt;" := by rfl

/-! ## Language fallback (src/locales/languages.js, not in the sample) -/

/-- Modelled from the spec: `languages.getFallbacks` (src/locales/languages.js
is not part of the sample). The spec describes it as producing "an ordered
fallback chain ending in a default language" for the requested language; the
chain does not repeat the requested language (the caller prepends it), and
for the default language `en` the chain is just `["en"]`. The per-language
intermediate entries are irrelevant to the claims, so the model keeps them
abstract as an (empty) table. -/
def fallbackIntermediates (_lang : String) : List String := []

/-- Modelled from the spec: the fallback chain for a language, ending in the
default language `en`. -/
def getFallbacks (lang : String) : List String :=
  if lang = "en" then ["en"] else fallbackIntermediates lang ++ ["en"]

/-- The options object returned by `search.getSearchOptions`: the field
patterns for the query, and the highlighter configuration (pre/post tags
and the set of field names registered for highlighting). -/
structure SearchOptions where
  fields : List String
  highlightPre : String
  highlightPost : String
  highlightFields : List String
deriving Repr

/-- The field pattern `<fieldPrefix>.<lang>*` used for searches (matching
both the stemmed and the non-stemmed sub-fields). -/
def fieldPattern (pre l : String) : String := pre ++ "." ++ l ++ "*"

/-- The highlight field name `<fieldPrefix>.<lang>`. -/
def highlightField (pre l : String) : String := pre ++ "." ++ l

/-- `search.getSearchOptions(type, fieldPrefix, lang)`: compute the language
list (the fallback chain, with the requested language prepended unless it is
`en`), then produce one field pattern `<fieldPrefix>.<lang>*` per language
and one highlight field `<fieldPrefix>.<lang>` per language. The `type`
argument is unused by the source. -/
def getSearchOptions (_ty : String) ( fieldPref : String) (lang : String) :
    SearchOptions :=
  let langs := if lang ≠ "en" then lang :: getFallbacks lang else getFallbacks lang
  { fields := langs.map (fieldPattern fieldPref)
    highlightPre := "<span class=\"search-highlight\">"
    highlightPost := "</span>"
    highlightFields := langs.map (highlightField fieldPref) }

/-! ## Multilingual strings and HTML stripping
(src/models/helpers/ml-string.js, not in the sample) -/

/-- A multilingual string: a finite map from language code to text (a
JavaScript object), modelled as an association list preserving key order. -/
abbrev MlMap := List (String × String)

/-- Remove the character ranges between `<` and `>` from a character list;
the boolean tracks whether the scanner is inside a tag. -/
def stripTagChars : List Char → Bool → List Char
  | [], _ => []
  | c :: cs, true => if c = '>' then stripTagChars cs false else stripTagChars cs true
  | c :: cs, false => if c = '<' then stripTagChars cs true else c :: stripTagChars cs false

/-- Modelled from the spec: HTML stripping of a single string
(`mlString.stripHTML` on one translation; ml-string.js is not in the
sample). The spec only says free-text fields have their HTML stripped, so
the model removes every tag, i.e. every `<`…`>` range. -/
def stripHTMLStr (s : String) : String := ⟨stripTagChars s.data false⟩

/-- Modelled from the spec: `mlString.stripHTML`, stripping the HTML of every
translation of a multilingual string. -/
def stripHTML (m : MlMap) : MlMap := m.map (fun kv => (kv.1, stripHTMLStr kv.2))

/-- A multilingual array of strings (the `aliases` field): per language, a
list of alias strings. -/
abbrev MlArrMap := List (String × List String)

/-- Modelled from the spec: `mlString.stripHTMLFromArray`, stripping the HTML
of every member of every translation of a multilingual string array. -/
def stripHTMLFromArray (m : MlArrMap) : MlArrMap :=
  m.map (fun kv => (kv.1, kv.2.map stripHTMLStr))

/-! ## Indexing reviews and things (search.js) -/

/-- The fields of a review relevant to `search.indexReview`. -/
structure Review where
  id : String
  thingID : String
  createdOn : Nat
  title : MlMap
  html : MlMap
  starRating : Nat
deriving Repr

/-- The fields of a thing relevant to `search.indexThing` and to the
`/thing/...` routes. -/
structure Thing where
  id : String
  urlID : String
  createdOn : Nat
  label : Option MlMap
  aliases : MlArrMap
  description : MlMap
  urls : Option (List String)
  mainURL : Option String
  otherURLs : Option (List String)
deriving Repr, DecidableEq

/-- The document body submitted to the search service for a review. -/
structure ReviewDoc where
  createdOn : Nat
  title : MlMap
  text : MlMap
  starRating : Nat
deriving Repr, DecidableEq

/-- The document body submitted to the search service for a thing. -/
structure ThingDoc where
  createdOn : Nat
  label : Option MlMap
  aliases : MlArrMap
  description : MlMap
  urls : Option (List String)
  urlID : String
deriving Repr, DecidableEq

/-- How a promise settles. -/
inductive Settled where
  | fulfilled : Settled
  | rejected : Settled
deriving Repr, DecidableEq

/-- The `.catch(error => debug.error({error}))` pattern shared by the index,
delete and create-indices calls: whatever the underlying client call does,
the resulting promise settles as fulfilled, and a rejection is recorded in
the log only. -/
def fireAndForget (result : Except String Unit) : Settled × List String :=
  match result with
  | .ok _ => (.fulfilled, [])
  | .error e => (.fulfilled, [e])

/-- The request body built by `search.indexReview`: free-text fields (title,
text) are HTML-stripped before submission. The review's `html` field is what
is indexed as `text`. -/
def indexReviewDoc (review : Review) : ReviewDoc :=
  { createdOn := review.createdOn
    title := stripHTML review.title
    text := stripHTML review.html
    starRating := review.starRating }

/-- `search.indexReview(review)` given the outcome of the underlying
`client.index` call: the submitted document, how the returned promise
settles, and the logged errors. -/
def indexReview (review : Review) (clientResult : Except String Unit) :
    ReviewDoc × Settled × List String :=
  (indexReviewDoc review, fireAndForget clientResult)

/-- The request body built by `search.indexThing`: label, aliases and
description are HTML-stripped before submission. -/
def indexThingDoc (thing : Thing) : ThingDoc :=
  { createdOn := thing.createdOn
    label := thing.label.map stripHTML
    aliases := stripHTMLFromArray thing.aliases
    description := stripHTML thing.description
    urls := thing.urls
    urlID := thing.urlID }

/-- `search.indexThing(thing)` given the outcome of the underlying
`client.index` call. -/
def indexThing (thing : Thing) (clientResult : Except String Unit) :
    ThingDoc × Settled × List String :=
  (indexThingDoc thing, fireAndForget clientResult)

/-! ## The flash-error helper (src/routes/helpers/flash-error.js) -/

/-- The value passed to `flashErrorMessage`: either an `ErrorMessage`
instance (the `constructor.name == 'ErrorMessage'` check succeeds exactly
for these) or any other JavaScript value. -/
inductive FlashArg where
  | errorMessage : ErrorMessage → FlashArg
  | other : JSValue → FlashArg
deriving Repr

/-- The observable effect of `flashErrorMessage`: the argument list handed
to the localizer `req.__` for the flashed message, and the record sent to
the diagnostic log, if any (context string together with the error). -/
structure FlashResult where
  flashedArgs : List JSValue
  logged : Option (String × FlashArg)

/-- `flashErrorMessage(req, errorMessage, context)`: an `ErrorMessage` is
localized from its escaped array and nothing is logged; any other value
flashes the localized `unknown error` message and logs context plus error. -/
def flashErrorMessage (errorMessage : FlashArg) (context : String) :
    FlashResult :=
  match errorMessage with
  | .errorMessage em => { flashedArgs := em.toEscapedArray, logged := none }
  | .other v =>
      { flashedArgs := [.str "unknown error"]
        logged := some (context, .other v) }

/-! ## The thing routes (src/routes/things.js) -/

/-- Utilities for JavaScript association-object updates: set a key,
overwriting in place and otherwise preserving order (property insertion
order, as JavaScript objects do). -/
def setKey : MlMap → String → String → MlMap
  | [], k, v => [(k, v)]
  | (k₀, v₀) :: rest, k, v =>
      if k₀ = k then (k, v) :: rest else (k₀, v₀) :: setKey rest k v

/-- Lookup of a key in a JavaScript association object. -/
def getKey : MlMap → String → Option String
  | [], _ => none
  | (k₀, v₀) :: rest, k => if k₀ = k then some v₀ else getKey rest k

/-- The two form fields read by the label-edit POST handler; `none` models a
missing field (an empty request body has both missing). -/
structure ReqBody where
  thingLabelLanguage : Option String
  thingLabel : Option String
deriving Repr, DecidableEq

/-- JavaScript coercion of a possibly-undefined string to a string, as done
when a value is used as an object key or passed to `escape-html`:
`undefined` becomes the string `undefined`. -/
def jsStringOf : Option String → String
  | some s => s
  | none => "undefined"

/-- The label update performed by the POST handler on the new revision:
`newRev.label[req.body['thing-label-language']] =
escapeHTML(req.body['thing-label'])`, after replacing a missing label by the
empty object. Exactly one key is assigned. -/
def updateLabel (label : Option MlMap) (body : ReqBody) : MlMap :=
  setKey (label.getD []) (jsStringOf body.thingLabelLanguage)
    (escapeHTML (jsStringOf body.thingLabel))

/-- The observable outcome of a label-edit route handler: HTTP status, the
rendered view (if any), the redirect target (if any), whether a new revision
object was created, and the label of the revision that was successfully
saved (if any). -/
structure HandlerOutcome where
  status : Nat
  view : Option String
  redirectTo : Option String
  revisionCreated : Bool
  savedLabel : Option MlMap
deriving Repr, DecidableEq

/-- `render.permissionError`: status 403 and the `permission-error` view
(src/routes/helpers/render.js). -/
def permissionOutcome : HandlerOutcome :=
  { status := 403, view := some "permission-error", redirectTo := none
    revisionCreated := false, savedLabel := none }

/-- `GET /thing/:id/edit/label`: a signed-out user gets the signin-required
view; a signed-in user without edit permission gets the permission error;
otherwise the thing is rendered in edit mode. No branch creates a
revision. -/
def getEditLabel (signedIn userCanEdit : Bool) : HandlerOutcome :=
  if !signedIn then
    { status := 200, view := some "signin-required", redirectTo := none
      revisionCreated := false, savedLabel := none }
  else if !userCanEdit then permissionOutcome
  else
    { status := 200, view := some "thing", redirectTo := none
      revisionCreated := false, savedLabel := none }

/-- `POST /thing/:id/edit/label`. `revOk` is the outcome of
`thing.newRevision` and `saveOk` the outcome of `newRev.save()`; their
failure branches flash an error and re-render the thing. The new revision
starts from the thing's current label (modelled from the spec: revisions
copy the entity's editable fields; models/thing.js is not in the sample),
receives the single key/value taken from the request body, and is saved. -/
def postEditLabel (userCanEdit : Bool) (thing : Thing) (body : ReqBody)
    (revOk saveOk : Bool) : HandlerOutcome :=
  if !userCanEdit then permissionOutcome
  else if !revOk then
    { status := 200, view := some "thing", redirectTo := none
      revisionCreated := false, savedLabel := none }
  else
    let newLabel := updateLabel thing.label body
    if !saveOk then
      { status := 200, view := some "thing", redirectTo := none
        revisionCreated := true, savedLabel := none }
    else
      { status := 200, view := none, redirectTo := some ("/thing/" ++ thing.id)
        revisionCreated := true, savedLabel := some newLabel }

/-- `sendThing`'s mutation of its `thing` argument: when `thing.urls` is a
truthy, non-empty array, `shift()` removes its first element into
`thing.mainURL`, and `thing.otherURLs` is assigned the remaining array only
when it is non-empty. Nothing else on the thing is touched. -/
def sendThingMutate (thing : Thing) : Thing :=
  match thing.urls with
  | some (u :: rest) =>
      { thing with
        urls := some rest
        mainURL := some u
        otherURLs := if rest.isEmpty then thing.otherURLs else some rest }
  | _ => thing

/-! ## The editor-switcher pin (src/frontend editor integration) -/

/-- The state of one `.editor-switcher-pin` element: which of the classes
manipulated by the click handler it carries, and its `title` attribute. -/
structure PinState where
  pinnedClass : Bool
  unpinnedClass : Bool
  thumbTack : Bool
  spinner : Bool
  faSpin : Bool
  working : Bool
  title : Option String
deriving Repr, DecidableEq

/-- The `spin` closure: drop `fa-thumb-tack`, add
`fa-spinner fa-spin editor-switcher-working`. -/
def spinPin (s : PinState) : PinState :=
  { s with thumbTack := false, spinner := true, faSpin := true, working := true }

/-- The `unspin` closure: drop the spinner classes, restore
`fa-thumb-tack`. -/
def unspinPin (s : PinState) : PinState :=
  { s with spinner := false, faSpin := false, working := false, thumbTack := true }

/-- The restyle applied to every pin in the ajax `done` handler: the server's
`newValue` string decides pinned versus unpinned classes and the title
message key. -/
def restylePin (s : PinState) (newValue : String) : PinState :=
  if newValue = "true" then
    { s with
      unpinnedClass := false
      pinnedClass := true
      title := some "forget rte preference" }
  else
    { s with
      pinnedClass := false
      unpinnedClass := true
      title := some "remember rte preference" }

/-- One completed toggle-preference round trip on one pin element:
the 100 ms timer may or may not have spun the pin (`didSpin`), then the
`done` handler unspins and restyles it with the server's `newValue`. -/
def togglePin (s : PinState) (newValue : String) (didSpin : Bool) : PinState :=
  restylePin (unspinPin (if didSpin then spinPin s else s)) newValue

/-- One completed toggle-preference round trip acting on every pin element
on the page, as `$('.editor-switcher-pin')` does. -/
def togglePins (pins : List PinState) (newValue : String) (didSpin : Bool) :
    List PinState :=
  pins.map (fun s => togglePin s newValue didSpin)

/-- The canonical rendered state of a pin for preference `p`:
pinned exactly when `p`, with the matching title message. -/
def canonicalPin (p : Bool) : PinState :=
  { pinnedClass := p, unpinnedClass := !p, thumbTack := true
    spinner := false, faSpin := false, working := false
    title := some (if p then "forget rte preference" else "remember rte preference") }

/-- The `newValue` strings sent by the server: the stringified flipped
preference. -/
def boolStr (b : Bool) : String := if b then "true" else "false"

/-! ## Helper lemmas -/

/-- No per-character escape ever emits a literal `<`. -/
lemma lt_not_mem_escapeCharList (c : Char) : '<' ∉ escapeCharList c := by
  unfold escapeCharList
  split_ifs with h₁ h₂ h₃ h₄ h₅
  · decide
  · decide
  · decide
  · decide
  · decide
  · intro hmem
    rw [List.mem_singleton] at hmem
    exact h₄ hmem.symm

/-- The output of `escapeChars` never contains a literal `<`. -/
lemma lt_not_mem_escapeChars : ∀ l : List Char, '<' ∉ escapeChars l := by
  intro l
  induction l with
  | nil => simp [escapeChars]
  | cons c cs ih =>
      intro hmem
      rw [escapeChars, List.mem_append] at hmem
      rcases hmem with hmem | hmem
      · exact lt_not_mem_escapeCharList c hmem
      · exact ih hmem

/-- The output of `escapeHTML` never contains a literal `<`. -/
lemma lt_not_mem_escapeHTML (s : String) : '<' ∉ (escapeHTML s).data :=
  lt_not_mem_escapeChars s.data

/-- A string containing a literal `<` is not HTML-escaped. -/
lemma not_HTMLEscapedStr_of_lt_mem {s : String} (h : '<' ∈ s.data) :
    ¬ HTMLEscapedStr s := by
  rintro ⟨t, ht⟩
  exact lt_not_mem_escapeHTML t (ht ▸ h)

/-- `allStrings` recovers the strings of a list of string values. -/
lemma allStrings_map_str : ∀ strs : List String,
    allStrings (strs.map .str) = some strs := by
  intro strs
  induction strs with
  | nil => rfl
  | cons s rest ih => simp [allStrings, ih]

/-- `allStrings` fails on a list containing a non-string. -/
lemma allStrings_eq_none {l : List JSValue} (h : ∃ e ∈ l, isString e = false) :
    allStrings l = none := by
  induction l with
  | nil => simp at h
  | cons e rest ih =>
      rcases h with ⟨x, hx, hxs⟩
      rcases List.mem_cons.mp hx with rfl | hx'
      · cases x <;> simp_all [allStrings, isString]
      · cases e with
        | str s => simp [allStrings, ih ⟨x, hx', hxs⟩]
        | _ => simp [allStrings]

/-- Setting one key of a JavaScript object leaves every other key
unchanged. -/
lemma getKey_setKey_ne (m : MlMap) (k k' v : String) (h : k' ≠ k) :
    getKey (setKey m k v) k' = getKey m k' := by
  induction m with
  | nil =>
      simp only [setKey, getKey]
      rw [if_neg (fun he : k = k' => h he.symm)]
  | cons kv rest ih =>
      obtain ⟨k₀, v₀⟩ := kv
      by_cases hk : k₀ = k
      · simp only [setKey]
        rw [if_pos hk]
        simp only [getKey]
        rw [if_neg (fun he : k = k' => h he.symm),
          if_neg (fun he : k₀ = k' => h (hk ▸ he).symm)]
      · simp only [setKey]
        rw [if_neg hk]
        simp only [getKey]
        by_cases hk' : k₀ = k'
        · rw [if_pos hk', if_pos hk']
        · rw [if_neg hk', if_neg hk', ih]

/-! ## Claim theorems -/

/-- C1, counterexample: an `ErrorMessage` can be constructed with the
message key `<b>` (the constructor does not restrict the key), and then the
first entry of `toEscapedArray()` is that key, unescaped, so not every entry
of `toEscapedArray()` is HTML-escaped. -/
theorem toEscapedArray_key_unescaped_cex :
    ErrorMessage.construct (.str "<b>") (.arr []) none =
      .ok ⟨.str "<b>", [], none⟩ ∧
    ¬ (∀ v ∈ (ErrorMessage.mk (.str "<b>") [] none).toEscapedArray,
        HTMLEscapedVal v) := by
  refine ⟨rfl, fun h => ?_⟩
  have hmem : JSValue.str "<b>" ∈
      (ErrorMessage.mk (.str "<b>") [] none).toEscapedArray := by
    simp [ErrorMessage.toEscapedArray]
  have hesc := h _ hmem
  exact not_HTMLEscapedStr_of_lt_mem (by decide) hesc

/-- C1, amended: for every `ErrorMessage`, `toEscapedArray()` has the same
length as `toArray()` (namely 1 + number of parameters); its first entry is
the message key, unescaped, and every subsequent entry is the HTML-escaping
of the corresponding parameter (in particular, every entry after the first
is HTML-escaped). -/
theorem toEscapedArray_spec (em : ErrorMessage) :
    em.toEscapedArray.length = em.toArray.length ∧
    em.toEscapedArray.length = 1 + em.msgParams.length ∧
    em.toEscapedArray.head? = some em.msgKey ∧
    (∀ i : Nat, em.toEscapedArray[i + 1]? =
      (em.msgParams[i]?).map (fun s => .str (escapeHTML s))) ∧
    (∀ v ∈ em.toEscapedArray.tail, HTMLEscapedVal v) := by
  refine ⟨?_, ?_, rfl, ?_, ?_⟩
  · simp [ErrorMessage.toEscapedArray, ErrorMessage.toArray]
  · simp [ErrorMessage.toEscapedArray, Nat.add_comm]
  · intro i
    simp [ErrorMessage.toEscapedArray]
  · intro v hv
    simp only [ErrorMessage.toEscapedArray, List.tail_cons, List.mem_map] at hv
    obtain ⟨s, _, rfl⟩ := hv
    exact ⟨s, rfl⟩

/-- C2, counterexample: `false` is not an array, yet constructing an
`ErrorMessage` with `msgParams = false` does not throw — a falsy `msgParams`
is replaced by the empty parameter list. -/
theorem construct_falsy_nonarray_cex :
    isArray (.bool false) = false ∧
    ErrorMessage.construct (.str "k") (.bool false) none =
      .ok ⟨.str "k", [], none⟩ :=
  ⟨rfl, rfl⟩

/-- C2, amended: constructing an `ErrorMessage` with a truthy non-array
`msgParams` throws, as does an array `msgParams` containing a non-string
element; a falsy `msgParams` is treated as absent (empty parameter list)
and, when `msgKey` is truthy, construction succeeds; under the precondition
that `msgKey` is truthy and `msgParams` is an array of strings, construction
succeeds and stores those strings. -/
theorem construct_classifies (k p : JSValue) (l : List JSValue) :
    (truthy p = true → isArray p = false →
      ∃ m, ErrorMessage.construct k p none = .error m) ∧
    ((∃ e ∈ l, isString e = false) →
      ∃ m, ErrorMessage.construct k (.arr l) none = .error m) ∧
    (truthy k = true → ∀ strs : List String, l = strs.map .str →
      ErrorMessage.construct k (.arr l) none = .ok ⟨k, strs, none⟩) ∧
    (truthy k = true → truthy p = false →
      ErrorMessage.construct k p none = .ok ⟨k, [], none⟩) := by
  have harrT : ∀ L : List JSValue, truthy (JSValue.arr L) = true := fun _ => rfl
  have harrA : ∀ L : List JSValue, isArray (JSValue.arr L) = true := fun _ => rfl
  refine ⟨?_, ?_, ?_, ?_⟩
  · intro hp harr
    cases hk : truthy k with
    | false =>
        exact ⟨"Must provide at least a message key for the error.",
          by simp [ErrorMessage.construct, hk]⟩
    | true =>
        exact ⟨"Message parameters must be provided as an array.",
          by simp [ErrorMessage.construct, hk, hp, harr]⟩
  · intro hne
    cases hk : truthy k with
    | false =>
        exact ⟨"Must provide at least a message key for the error.",
          by simp [ErrorMessage.construct, hk]⟩
    | true =>
        exact ⟨"Message parameters must be strings.",
          by simp [ErrorMessage.construct, hk, harrT, harrA,
            allStrings_eq_none hne]⟩
  · rintro hk strs rfl
    simp [ErrorMessage.construct, hk, harrT, harrA, allStrings_map_str]
  · intro hk hp
    simp [ErrorMessage.construct, hk, hp, allStrings]

/-- C2, witness: the amended classification evaluated at concrete inputs —
a truthy non-array `msgParams` and an array with a non-string member throw,
while an array of strings and a falsy `msgParams` construct successfully. -/
theorem construct_classifies_witness :
    (∃ m, ErrorMessage.construct (.str "k") (.num 5) none = .error m) ∧
    (∃ m, ErrorMessage.construct (.str "k") (.arr [.num 7]) none = .error m) ∧
    ErrorMessage.construct (.str "k") (.arr [.str "x"]) none =
      .ok ⟨.str "k", ["x"], none⟩ ∧
    ErrorMessage.construct (.str "k") (.bool false) none =
      .ok ⟨.str "k", [], none⟩ :=
  ⟨(construct_classifies (.str "k") (.num 5) []).1 rfl rfl,
    (construct_classifies (.str "k") (.num 5) [.num 7]).2.1
      ⟨.num 7, by simp, rfl⟩,
    (construct_classifies (.str "k") (.arr [.str "x"]) [.str "x"]).2.2.1
      rfl ["x"] rfl,
    (construct_classifies (.str "k") (.bool false) []).2.2.2 rfl rfl⟩

/-- C3: `getSearchOptions(type, fieldPrefix, 'fr')` returns the field
pattern for `fr` first, followed by one pattern per language of the fallback
chain for `fr`, in order; and for the requested language `en` (the default)
the field list is the single `en` pattern, so the default language is not
duplicated. -/
theorem getSearchOptions_fallback_fields (ty pre : String) :
    (getSearchOptions ty pre "fr").fields =
      fieldPattern pre "fr" :: (getFallbacks "fr").map (fieldPattern pre) ∧
    (getSearchOptions ty pre "en").fields = [fieldPattern pre "en"] ∧
    List.count (fieldPattern pre "en") (getSearchOptions ty pre "en").fields
      = 1 := by
  refine ⟨rfl, rfl, ?_⟩
  simp [getSearchOptions, getFallbacks]

/-- C4: the documents submitted by `indexReview` and `indexThing` carry the
HTML-stripped title/text and label/aliases/description, and whatever the
underlying index call does, the returned promise settles as fulfilled
(failures are only logged). -/
theorem index_strips_and_settles (review : Review) (thing : Thing)
    (result : Except String Unit) :
    (indexReview review result).1.title = stripHTML review.title ∧
    (indexReview review result).1.text = stripHTML review.html ∧
    (indexReview review result).2.1 = .fulfilled ∧
    (indexThing thing result).1.label = thing.label.map stripHTML ∧
    (indexThing thing result).1.aliases = stripHTMLFromArray thing.aliases ∧
    (indexThing thing result).1.description = stripHTML thing.description ∧
    (indexThing thing result).2.1 = .fulfilled := by
  refine ⟨rfl, rfl, ?_, rfl, rfl, rfl, ?_⟩ <;>
    cases result <;> rfl

/-- C5: handling the label-edit POST with an empty request body (both form
fields missing) saves a revision whose label assigns only the single key
coerced from the body (`undefined`), so every existing translation for a
language other than that key is unchanged. -/
theorem postEditLabel_empty_body_preserves (thing : Thing) (m : MlMap)
    (lang : String) (hm : thing.label = some m) (hl : lang ≠ "undefined") :
    (postEditLabel true thing ⟨none, none⟩ true true).savedLabel =
      some (setKey m "undefined" "undefined") ∧
    getKey (setKey m "undefined" "undefined") lang = getKey m lang := by
  constructor
  · have hesc : escapeHTML "undefined" = "undefined" := by decide
    simp [postEditLabel, updateLabel, hm, jsStringOf, hesc]
  · exact getKey_setKey_ne m "undefined" lang "undefined" hl

/-- C5, witness: a thing labelled in French and German keeps both
translations when the label-edit POST arrives with an empty body. -/
theorem postEditLabel_empty_body_preserves_witness :
    ((postEditLabel true
        { id := "t1", urlID := "t1", createdOn := 0
          label := some [("fr", "Chose"), ("de", "Ding")]
          aliases := [], description := [], urls := none
          mainURL := none, otherURLs := none }
        ⟨none, none⟩ true true).savedLabel =
      some (setKey [("fr", "Chose"), ("de", "Ding")] "undefined" "undefined") ∧
    getKey (setKey [("fr", "Chose"), ("de", "Ding")] "undefined" "undefined")
        "fr" =
      getKey [("fr", "Chose"), ("de", "Ding")] "fr") ∧
    getKey (setKey [("fr", "Chose"), ("de", "Ding")] "undefined" "undefined")
        "de" =
      getKey [("fr", "Chose"), ("de", "Ding")] "de" :=
  ⟨postEditLabel_empty_body_preserves _ _ "fr" rfl (by decide),
    (postEditLabel_empty_body_preserves
      { id := "t1", urlID := "t1", createdOn := 0
        label := some [("fr", "Chose"), ("de", "Ding")]
        aliases := [], description := [], urls := none
        mainURL := none, otherURLs := none }
      [("fr", "Chose"), ("de", "Ding")] "de" rfl (by decide)).2⟩

/-- C6: `flashErrorMessage` classifies its argument into exactly the two
kinds of `FlashArg`: an `ErrorMessage` flashes the localizer applied to its
escaped array and logs nothing; every other value flashes the localized
`unknown error` message and logs the context together with the error. -/
theorem flashErrorMessage_classifies (em : ErrorMessage) (v : JSValue)
    (ctx : String) :
    flashErrorMessage (.errorMessage em) ctx =
      { flashedArgs := em.toEscapedArray, logged := none } ∧
    flashErrorMessage (.other v) ctx =
      { flashedArgs := [.str "unknown error"]
        logged := some (ctx, .other v) } :=
  ⟨rfl, rfl⟩

/-- C7: for both the GET and the POST label-edit route, a request on a thing
the user cannot edit yields the `permission-error` view with HTTP status
403, and no new revision is created (and nothing is saved). -/
theorem editLabel_permission_denied (thing : Thing) (body : ReqBody)
    (revOk saveOk : Bool) :
    getEditLabel true false = permissionOutcome ∧
    postEditLabel false thing body revOk saveOk = permissionOutcome ∧
    permissionOutcome.status = 403 ∧
    permissionOutcome.view = some "permission-error" ∧
    permissionOutcome.revisionCreated = false ∧
    permissionOutcome.savedLabel = none :=
  ⟨rfl, rfl, rfl, rfl, rfl, rfl⟩

/-- C9: starting from any uniform pinned/unpinned pin state, two completed
toggle-preference round trips — each applying the server's flipped
`newValue`, with or without the spinner having appeared — return every pin
element on the page to its original CSS-class state and title. -/
theorem togglePins_twice_restores (p d₁ d₂ : Bool) (pins : List PinState)
    (h : ∀ s ∈ pins, s = canonicalPin p) :
    togglePins (togglePins pins (boolStr !p) d₁) (boolStr p) d₂ = pins := by
  induction pins with
  | nil => rfl
  | cons s rest ih =>
      have hs : s = canonicalPin p := h s (List.mem_cons_self s rest)
      have hrest := ih (fun x hx => h x (List.mem_cons_of_mem s hx))
      show togglePin (togglePin s (boolStr !p) d₁) (boolStr p) d₂ ::
          togglePins (togglePins rest (boolStr !p) d₁) (boolStr p) d₂ =
        s :: rest
      rw [hrest, hs]
      cases p <;> cases d₁ <;> cases d₂ <;> rfl

/-- C9, witness: two pinned pins survive a double toggle (first response
`false`, then `true`) unchanged. -/
theorem togglePins_twice_restores_witness :
    togglePins
        (togglePins [canonicalPin true, canonicalPin true] (boolStr (!true))
          false)
        (boolStr true) true =
      [canonicalPin true, canonicalPin true] :=
  togglePins_twice_restores true false true [canonicalPin true, canonicalPin true]
    (by intro s hs; rcases List.mem_cons.mp hs with rfl | hs'
        · rfl
        · rw [List.mem_singleton] at hs'; exact hs')

/-- C10: when `thing.urls` is non-empty, `sendThing` moves its first element
to `thing.mainURL`, leaves the remaining list in `thing.urls`, assigns
`thing.otherURLs` only when at least one URL remains (otherwise it is
untouched), and changes no other field of the thing. -/
theorem sendThing_shifts_urls (thing : Thing) (u : String)
    (rest : List String) (h : thing.urls = some (u :: rest)) :
    (sendThingMutate thing).mainURL = some u ∧
    (sendThingMutate thing).urls = some rest ∧
    (rest ≠ [] → (sendThingMutate thing).otherURLs = some rest) ∧
    (rest = [] → (sendThingMutate thing).otherURLs = thing.otherURLs) ∧
    (sendThingMutate thing).id = thing.id ∧
    (sendThingMutate thing).urlID = thing.urlID ∧
    (sendThingMutate thing).createdOn = thing.createdOn ∧
    (sendThingMutate thing).label = thing.label ∧
    (sendThingMutate thing).aliases = thing.aliases ∧
    (sendThingMutate thing).description = thing.description := by
  have hmut : sendThingMutate thing =
      { thing with
        urls := some rest
        mainURL := some u
        otherURLs := if rest.isEmpty then thing.otherURLs else some rest } := by
    unfold sendThingMutate
    rw [h]
  rw [hmut]
  refine ⟨rfl, rfl, ?_, ?_, rfl, rfl, rfl, rfl, rfl, rfl⟩
  · intro hne
    simp [List.isEmpty_iff, hne]
  · intro he
    simp [he]

/-- C10, witness: a thing carrying two URLs has the first moved to
`mainURL` and the second kept in `urls` and `otherURLs`. -/
theorem sendThing_shifts_urls_witness :
    (sendThingMutate
        { id := "t2", urlID := "t2", createdOn := 0, label := none
          aliases := [], description := []
          urls := some ["https://a.example/", "https://b.example/"]
          mainURL := none, otherURLs := none }).mainURL =
      some "https://a.example/" ∧
    (sendThingMutate
        { id := "t2", urlID := "t2", createdOn := 0, label := none
          aliases := [], description := []
          urls := some ["https://a.example/", "https://b.example/"]
          mainURL := none, otherURLs := none }).urls =
      some ["https://b.example/"] :=
  ⟨(sendThing_shifts_urls _ _ _ rfl).1,
    (sendThing_shifts_urls
      { id := "t2", urlID := "t2", createdOn := 0, label := none
        aliases := [], description := []
        urls := some ["https://a.example/", "https://b.example/"]
        mainURL := none, otherURLs := none }
      "https://a.example/" ["https://b.example/"] rfl).2.1⟩

end LibReviews
